import Mathlib

/-!
Verification development for the opensips_exporter bridge.

The definitions below are a shallow embedding of the Go sources:
  - main.go                  (exporter orchestration, Collect and friends)
  - the mi_json client file  (MINode tree decoder fromJson / fromJsonList)
  - the statistics catalog   (opensipsStats)

Go maps are modelled as association lists carrying the iteration order;
a Go nil map is modelled as `none` of `Option (List (String × String))`
(reads of a nil map yield the zero value, writes are a runtime panic,
modelled by `DecodeRes.crash`).  float64 values are modelled as ℚ.
-/

set_option maxHeartbeats 1000000

namespace OSE

/-- Model of a Go `map[string]string` value: `none` is the nil map,
`some l` is a map whose iteration order is the order of `l`. -/
abbrev GoStrMap := Option (List (String × String))

/-- Association-list lookup modelling Go map indexing `m[k]` (first
binding wins; Go maps have unique keys, so the binding is unique). -/
def findPair {α : Type} : List (String × α) → String → Option α
  | [], _ => none
  | (k, v) :: rest, key => if k = key then some v else findPair rest key

/-- Read `m[k]` on a possibly-nil Go string map: missing keys and the
nil map both give the zero value `""`. -/
def goGet (m : GoStrMap) (k : String) : String :=
  match m with
  | none => ""
  | some l => (findPair l k).getD ""

/-- Insert into the association list modelling a Go map write
`m[k] = v`: an existing binding is overwritten in place, a new key is
appended (last write wins for lookups). -/
def goInsertL : List (String × String) → String → String → List (String × String)
  | [], k, v => [(k, v)]
  | (k0, v0) :: rest, k, v =>
    if k0 = k then (k0, v) :: rest else (k0, v0) :: goInsertL rest k v

/-- Already-deserialized JSON value, the input type of the tree decoder
(the output of Go `encoding/json` decoding into `interface\x7b\x7d`).
`obj` carries the map's iteration order; numbers carry an integer
payload only, since the decoder never inspects a number's value. -/
inductive Json where
  | str : String → Json
  | num : Int → Json
  | bool : Bool → Json
  | null : Json
  | arr : List Json → Json
  | obj : List (String × Json) → Json

/-- Association-list lookup modelling Go map indexing on the decoded
JSON object (`mapval["name"]` and friends). -/
def findKey : List (String × Json) → String → Option Json
  | [], _ => none
  | (k, v) :: rest, key => if k = key then some v else findKey rest key

/-- Shape description used in the decoder's error messages, modelling
`reflect.TypeOf`. -/
def jsonTypeName : Json → String
  | .str _ => "string"
  | .num _ => "float64"
  | .bool _ => "bool"
  | .null => "nil"
  | .arr _ => "[]interface"
  | .obj _ => "map[string]interface"

/-- OpenSIPS MI tree node (`MINode` of the mi_json package).  The Go
zero values are name `""`, value `""`, nil attrs, nil children and nil
childValues. -/
inductive MINode where
  | mk (name value : String) (attrs : GoStrMap)
       (children : List MINode) (childValues : GoStrMap)

def MINode.name : MINode → String
  | .mk x _ _ _ _ => x

def MINode.value : MINode → String
  | .mk _ x _ _ _ => x

def MINode.attrs : MINode → GoStrMap
  | .mk _ _ x _ _ => x

def MINode.children : MINode → List MINode
  | .mk _ _ _ x _ => x

def MINode.childValues : MINode → GoStrMap
  | .mk _ _ _ _ x => x

/-- The zero MINode `&MINode\x7b\x7d`. -/
def MINode.empty : MINode := .mk "" "" none [] none

def MINode.withName (s : String) : MINode → MINode
  | .mk _ b c d e => .mk s b c d e

def MINode.withValue (s : String) : MINode → MINode
  | .mk a _ c d e => .mk a s c d e

def MINode.withAttrs (m : GoStrMap) : MINode → MINode
  | .mk a b _ d e => .mk a b m d e

def MINode.withChildren (l : List MINode) : MINode → MINode
  | .mk a b c _ e => .mk a b c l e

def MINode.withChildValues (m : GoStrMap) : MINode → MINode
  | .mk a b c d _ => .mk a b c d m

def MINode.appendChild : MINode → MINode → MINode
  | .mk a b at_ ch cv, c => .mk a b at_ (ch ++ [c]) cv

/-- Result of a decode step.  `ok` and `err` model the Go
`(*MINode, error)` pair; `crash` models a Go runtime panic — the code
can hit "assignment to entry in nil map" in `fromJsonList`. -/
inductive DecodeRes where
  | ok : MINode → DecodeRes
  | err : String → DecodeRes
  | crash : String → DecodeRes

/-- String-valued entries of a JSON object, in iteration order; used
for the `attributes` map (non-string attribute values are skipped). -/
def stringEntries (m : List (String × Json)) : List (String × String) :=
  m.foldl (fun acc kv =>
    match kv.2 with
    | .str s => goInsertL acc kv.1 s
    | _ => acc) []

/-- The probe `if val, exists := mapval[key]; if s, ok := val.(string)`
of fromJson: the value under `key` when it exists and is a string. -/
def probeStr (mapval : List (String × Json)) (key : String) : Option String :=
  match findKey mapval key with
  | some (.str s) => some s
  | _ => none

/-- The probe for a map-typed value under `key` (the `attributes`
check of fromJson). -/
def probeObj (mapval : List (String × Json)) (key : String) :
    Option (List (String × Json)) :=
  match findKey mapval key with
  | some (.obj m) => some m
  | _ => none

/-- The two actionable shapes of a `children` value: a JSON list or a
JSON map.  A `children` key holding anything else leaves the node
probe unaffected, exactly as in the source. -/
def childrenShape (mapval : List (String × Json)) :
    Option (List Json ⊕ List (String × Json)) :=
  match findKey mapval "children" with
  | some (.arr lst) => some (.inl lst)
  | some (.obj mp) => some (.inr mp)
  | _ => none

/-- The singleton-wrapped-array probe of fromJson (`len(mapval) == 1`
with a list value): the wrapping key and the wrapped list. -/
def singletonArr (mapval : List (String × Json)) : Option (String × List Json) :=
  match mapval with
  | [(nm, .arr lst)] => some (nm, lst)
  | _ => none

/-- Size bound for values found inside a JSON object, used for the
decoder's termination argument. -/
theorem sizeOf_findKey : ∀ (l : List (String × Json)) (k : String) (v : Json),
    findKey l k = some v → sizeOf v < sizeOf l := by
  intro l
  induction l with
  | nil => intro k v h; simp [findKey] at h
  | cons hd tl ih =>
    intro k v h
    obtain ⟨k0, v0⟩ := hd
    simp only [findKey] at h
    by_cases hk : k0 = k
    · simp [hk] at h
      subst h
      simp only [List.cons.sizeOf_spec, Prod.mk.sizeOf_spec]
      omega
    · simp [hk] at h
      have := ih k v h
      simp only [List.cons.sizeOf_spec]
      omega

/-- Size bound for a list-shaped `children` value. -/
theorem sizeOf_childrenShape_arr (mapval : List (String × Json)) (lst : List Json)
    (h : childrenShape mapval = some (.inl lst)) : sizeOf lst < sizeOf mapval := by
  unfold childrenShape at h
  rcases hk : findKey mapval "children" with _ | j <;> rw [hk] at h
  · simp at h
  · rcases j with _ | _ | _ | _ | l | m <;> simp at h
    · subst h
      have := sizeOf_findKey mapval "children" _ hk
      simp only [Json.arr.sizeOf_spec] at this
      omega

/-- Size bound for a map-shaped `children` value. -/
theorem sizeOf_childrenShape_obj (mapval mp : List (String × Json))
    (h : childrenShape mapval = some (.inr mp)) : sizeOf mp < sizeOf mapval := by
  unfold childrenShape at h
  rcases hk : findKey mapval "children" with _ | j <;> rw [hk] at h
  · simp at h
  · rcases j with _ | _ | _ | _ | l | m <;> simp at h
    · subst h
      have := sizeOf_findKey mapval "children" _ hk
      simp only [Json.obj.sizeOf_spec] at this
      omega

/-- Size bound for a singleton-wrapped array. -/
theorem sizeOf_singletonArr (mapval : List (String × Json)) (nm : String)
    (lst : List Json) (h : singletonArr mapval = some (nm, lst)) :
    sizeOf lst < sizeOf mapval := by
  rcases mapval with _ | ⟨⟨k, v⟩, rest⟩
  · simp [singletonArr] at h
  · rcases rest with _ | ⟨q, rest2⟩
    · rcases v with s | i | b0 | _ | l | m <;> simp [singletonArr] at h
      obtain ⟨h1, h2⟩ := h
      subst h2
      simp only [List.cons.sizeOf_spec, Prod.mk.sizeOf_spec, Json.arr.sizeOf_spec,
        List.nil.sizeOf_spec]
      omega
    · rcases v with s | i | b0 | _ | l | m <;> simp [singletonArr] at h

/-- The implicit-map branch of `fromJson` (the "parse as map" loop,
lines 186–193 of the client source): every key whose value is a JSON
string becomes a (name, value) leaf child and a `ChildValues` entry;
every other key is skipped.  The caller initialises `children := []`
and `childValues := some []`, so the map writes cannot crash here. -/
def implicitMapAux : MINode → List (String × Json) → MINode
  | n, [] => n
  | n, (k, v) :: rest =>
    match v with
    | .str vs =>
      implicitMapAux
        (((n.appendChild (.mk k vs none [] none)).withChildValues
          (some (goInsertL ((n.childValues).getD []) k vs)))) rest
    | _ => implicitMapAux n rest

/-- Wrapper for the implicit-map branch: `n.Children = make(...)`,
`n.ChildValues = make(...)` then the loop. -/
def implicitMap (n : MINode) (mapval : List (String × Json)) : MINode :=
  implicitMapAux ((n.withChildren []).withChildValues (some [])) mapval

mutual

/-- Model of `(*MINode).fromJson` (client source lines 107–201).
A map input is scanned for the explicit-node keys `name`, `value`,
`attributes`, `children`; failing those, a one-key map wrapping a list
is decoded as a named array, and any other map through the
implicit-map branch.  Any non-map input is the error
"Unsupported type in JSON". -/
def fromJson (n : MINode) (v : Json) : DecodeRes :=
  match v with
  | .obj mapval =>
    let n1 := match probeStr mapval "name" with
      | some s => n.withName s
      | none => n
    let n2 := match probeStr mapval "value" with
      | some s => n1.withValue s
      | none => n1
    let n3 := match probeObj mapval "attributes" with
      | some m => n2.withAttrs (some (stringEntries m))
      | none => n2
    match h4 : childrenShape mapval with
    | some (.inl lst) => fromJsonList n3 lst
    | some (.inr mp) =>
      childrenFromMapAux ((n3.withChildren []).withChildValues (some [])) mp
    | none =>
      if (probeStr mapval "name").isSome || (probeStr mapval "value").isSome
          || (probeObj mapval "attributes").isSome then .ok n3
      else
        match h5 : singletonArr mapval with
        | some (nm, lst) => fromJsonList (n3.withName nm) lst
        | none => .ok (implicitMap n3 mapval)
  | other => .err ("Unsupported type in JSON: " ++ jsonTypeName other)
termination_by sizeOf v
decreasing_by
  all_goals simp_wf
  all_goals try have := sizeOf_childrenShape_arr _ _ h4
  all_goals try have := sizeOf_childrenShape_obj _ _ h4
  all_goals try have := sizeOf_singletonArr _ _ _ h5
  all_goals try simp only [Json.arr.sizeOf_spec, Json.obj.sizeOf_spec,
    List.cons.sizeOf_spec, List.nil.sizeOf_spec, Prod.mk.sizeOf_spec] at *
  all_goals omega

/-- Model of the `children`-as-map branch of `fromJson` (client source
lines 144–168): each key of the inner map becomes a child named after
the key; a string value is the child's value, a map value is decoded
recursively, a list value is decoded as the child's children, anything
else is a decode error.  Named children are recorded in the (freshly
initialised) `ChildValues` map. -/
def childrenFromMapAux (n : MINode) : List (String × Json) → DecodeRes
  | [] => .ok n
  | (k, v) :: rest =>
    let cres : DecodeRes :=
      match v with
      | .str sv => .ok (.mk k sv none [] none)
      | .obj m2 => fromJson (.mk k "" none [] none) (.obj m2)
      | .arr lst => fromJsonList (.mk k "" none [] none) lst
      | other => .err ("Unsupported type in JSON: " ++ jsonTypeName other)
    match cres with
    | .err m => .err m
    | .crash m => .crash m
    | .ok child =>
      let na := n.appendChild child
      if child.name = "" then childrenFromMapAux na rest
      else
        match na.childValues with
        | none => .crash "assignment to entry in nil map"
        | some l =>
          childrenFromMapAux
            (na.withChildValues (some (goInsertL l child.name child.value))) rest
termination_by l => sizeOf l
decreasing_by
  all_goals simp_wf
  all_goals try simp only [List.cons.sizeOf_spec, Prod.mk.sizeOf_spec,
    Json.arr.sizeOf_spec, Json.obj.sizeOf_spec] at *
  all_goals omega

/-- Model of `(*MINode).fromJsonList` (client source lines 203–216):
`n.Children = make(...)` then the element loop. -/
def fromJsonList (n : MINode) (lst : List Json) : DecodeRes :=
  fromJsonListAux (n.withChildren []) lst
termination_by 1 + sizeOf lst
decreasing_by
  simp_wf
  try omega

/-- The element loop of `fromJsonList`: each element is decoded into a
fresh node and appended; an element that resolved to a non-empty name
is recorded in `n.ChildValues` — a write that crashes when
`n.ChildValues` is the nil map, which it is at every call site of
`fromJsonList` in the source. -/
def fromJsonListAux (n : MINode) : List Json → DecodeRes
  | [] => .ok n
  | e :: rest =>
    match fromJson MINode.empty e with
    | .err m => .err m
    | .crash m => .crash m
    | .ok child =>
      let na := n.appendChild child
      if child.name = "" then fromJsonListAux na rest
      else
        match na.childValues with
        | none => .crash "assignment to entry in nil map"
        | some l =>
          fromJsonListAux
            (na.withChildValues (some (goInsertL l child.name child.value))) rest
termination_by l => sizeOf l
decreasing_by
  all_goals simp_wf
  all_goals try simp only [List.cons.sizeOf_spec] at *
  all_goals omega

end

/-! ### Float parsing and name splitting (collectStats helpers) -/

/-- Numeric value of a digit list, most significant digit first. -/
def digitsVal (ds : List Char) : Nat :=
  ds.foldl (fun acc c => 10 * acc + (c.toNat - 48)) 0

/-- Model of Go `strconv.ParseFloat(s, 64)` restricted to plain
decimal form (optional sign, integer digits, optional fractional part):
the only form the monitored system's statistics and the dialog
profile counts use.  Returns `none` on anything else, modelling the
parse error. -/
def parseGoFloat (s : String) : Option ℚ :=
  let cs := s.toList
  let sr : Bool × List Char :=
    match cs with
    | '+' :: r => (false, r)
    | '-' :: r => (true, r)
    | _ => (false, cs)
  let ip := sr.2.takeWhile Char.isDigit
  let r1 := sr.2.dropWhile Char.isDigit
  match r1 with
  | [] =>
    if ip.isEmpty then none
    else some (if sr.1 then -(digitsVal ip : ℚ) else (digitsVal ip : ℚ))
  | '.' :: r2 =>
    let fp := r2.takeWhile Char.isDigit
    let r3 := r2.dropWhile Char.isDigit
    if r3.isEmpty && !(ip.isEmpty && fp.isEmpty) then
      let mag : ℚ := (digitsVal ip : ℚ) + (digitsVal fp : ℚ) / (10 : ℚ) ^ fp.length
      some (if sr.1 then -mag else mag)
    else none
  | _ => none

/-- Split a character list at the first occurrence of `sep`; `none`
when `sep` does not occur. -/
def splitCharsFirst (sep : Char) : List Char → Option (List Char × List Char)
  | [] => none
  | c :: rest =>
    if c = sep then some ([], rest)
    else
      match splitCharsFirst sep rest with
      | none => none
      | some (a, b) => some (c :: a, b)

/-- Model of `strings.SplitN(statName, ":", 2)` followed by the
`len(parts) != 2` check of collectStats: the subsystem part and the
remainder of the statistic name, or `none` when no colon occurs. -/
def splitFirstColon (s : String) : Option (String × String) :=
  match splitCharsFirst ':' s.toList with
  | none => none
  | some (a, b) => some (String.mk a, String.mk b)

/-- Model of `strings.Replace(s, " ", "_", -1)`: the pattern is a
single character, so replacing every non-overlapping occurrence is
replacing every space character. -/
def replaceSpaces (s : String) : String :=
  String.mk (s.toList.map (fun c => if c = ' ' then '_' else c))

/-- Model of `strings.TrimSpace`: strip whitespace from both ends. -/
def goTrim (s : String) : String :=
  String.mk (((s.toList.dropWhile Char.isWhitespace).reverse.dropWhile
    Char.isWhitespace).reverse)

/-! ### The statistics catalog

Each Go regexp of the catalog is anchored `^...$`, so
`FindStringSubmatch` succeeds exactly on a full match; every capture
group is named, and the emission's label values are the captured
strings in group declaration order (`m[1:]`).  Each pattern below is
modelled by an executable matcher returning the capture list, and the
group names extracted by the source's `init` function are recorded in
`labelNames`. -/

/-- Model of the anchored Go regexp `^(?P<g>.+)SUF$` (greedy, `.`
excludes the newline): captures everything before the literal suffix,
which must be non-empty. -/
def matchCapBefore (suf : String) (s : String) : Option (List String) :=
  let cs := s.toList
  let sl := suf.toList
  let k := cs.length - sl.length
  if decide (sl.length < cs.length) && (cs.drop k == sl)
      && (cs.take k).all (fun c => c != '\n')
  then some [String.mk (cs.take k)] else none

/-- Model of the anchored Go regexp `^PRE(?P<g>.+)$`: captures
everything after the literal front part, which must be non-empty. -/
def matchCapAfter (pre : String) (s : String) : Option (List String) :=
  let cs := s.toList
  let pl := pre.toList
  if decide (pl.length < cs.length) && (cs.take pl.length == pl)
      && (cs.drop pl.length).all (fun c => c != '\n')
  then some [String.mk (cs.drop pl.length)] else none

/-- Model of the anchored Go regexp `^(?P<g>\d+)SUF$`: captures the
non-empty digit run before the literal suffix. -/
def matchDigitsBefore (suf : String) (s : String) : Option (List String) :=
  let cs := s.toList
  let sl := suf.toList
  let k := cs.length - sl.length
  if decide (sl.length < cs.length) && (cs.drop k == sl)
      && (cs.take k).all Char.isDigit
  then some [String.mk (cs.take k)] else none

/-- Model of the anchored Go regexp `^PRE(?P<g>\d+)$`: captures the
non-empty digit run after the literal front part. -/
def matchDigitsAfter (pre : String) (s : String) : Option (List String) :=
  let cs := s.toList
  let pl := pre.toList
  if decide (pl.length < cs.length) && (cs.take pl.length == pl)
      && (cs.drop pl.length).all Char.isDigit
  then some [String.mk (cs.drop pl.length)] else none

/-- Model of the anchored Go regexp `^(?P<g>[2-6]xx)SUF$`: captures a
status-code class such as `2xx` before the literal suffix. -/
def matchCodeClass (suf : String) (s : String) : Option (List String) :=
  match s.toList with
  | c :: 'x' :: 'x' :: rest =>
    if decide ('2' ≤ c) && decide (c ≤ '6') && (String.mk rest == suf)
    then some [String.mk [c, 'x', 'x']] else none
  | _ => none

/-- Metric value semantics, modelling `prometheus.ValueType`. -/
inductive VKind where
  | counter
  | gauge
deriving DecidableEq, Repr

/-- One catalog entry, the `stat` struct of the catalog source: a
literal definition has `regexp = none` and matches by string equality
with `stat`; a pattern definition carries its matcher and the capture
group names (the label names extracted at catalog construction). -/
structure StatDef where
  name : String
  stat : String := ""
  regexp : Option (String → Option (List String)) := none
  labelNames : List String := []
  value : VKind
  help : String

/-- The full statistics catalog `opensipsStats`, keyed by subsystem,
each subsystem's definitions in declaration order. -/
def opensipsStats : List (String × List StatDef) := [
  ("core", [
    { name := "received_requests_total", stat := "rcv_requests", value := .counter,
      help := "The total number of received requests by OpenSIPS" },
    { name := "received_replies_total", stat := "rcv_replies", value := .counter,
      help := "The total number of received replies by OpenSIPS" },
    { name := "forwarded_requests_total", stat := "fwd_requests", value := .counter,
      help := "Total number of stateless forwarded requests by OpenSIPS" },
    { name := "forwarded_replies_total", stat := "fwd_replies", value := .counter,
      help := "Total number of stateless forwarded replies by OpenSIPS" },
    { name := "dropped_requests_total", stat := "drop_requests", value := .counter,
      help := "Total number of requests dropped even before entering the script routing logic" },
    { name := "dropped_replies_total", stat := "drop_replies", value := .counter,
      help := "Total number of replies dropped even before entering the script routing logic" },
    { name := "error_requests_total", stat := "err_requests", value := .counter,
      help := "Total number of bogus or invalid requests" },
    { name := "error_replies_total", stat := "err_replies", value := .counter,
      help := "Total number of bogus or invalid replies" },
    { name := "bad_uris_received_total", stat := "bad_URIs_rcvd", value := .counter,
      help := "Total number of URIs that OpenSIPS failed to parse" },
    { name := "unsupported_methods_total", stat := "unsupported_methods", value := .counter,
      help := "Total number of non-standard methods encountered by OpenSIPS while parsing SIP methods" },
    { name := "bad_message_headers_total", stat := "bad_msg_hdr", value := .counter,
      help := "Total number of SIP headers that OpenSIPS failed to parse" },
    { name := "uptime_seconds_total", stat := "timestamp", value := .counter,
      help := "The number of seconds elapsed from OpenSIPS starting" }]),
  ("dialog", [
    { name := "active_dialogs", stat := "active_dialogs", value := .gauge,
      help := "Number of active dialogs" },
    { name := "early_dialogs", stat := "early_dialogs", value := .gauge,
      help := "Number of early dialogs" },
    { name := "processed_dialogs_total", stat := "processed_dialogs", value := .counter,
      help := "Total number of processed dialogs" },
    { name := "expired_dialogs_total", stat := "expired_dialogs", value := .counter,
      help := "Total number of expired dialogs" },
    { name := "failed_dialogs_total", stat := "failed_dialogs", value := .counter,
      help := "Total number of failed dialogs" },
    { name := "replication_messages_sent_total", regexp := some (matchCapBefore "_sent"),
      labelNames := ["operation"], value := .counter,
      help := "Total number of replication messages sent" },
    { name := "replication_messages_received_total", regexp := some (matchCapBefore "_recv"),
      labelNames := ["operation"], value := .counter,
      help := "Total number of replication messages received" }]),
  ("load", [
    { name := "load", stat := "load", value := .gauge,
      help := "The real time load of core OpenSIPS processes" },
    { name := "load_all", stat := "load-all", value := .gauge,
      help := "The real time load of all OpenSIPS processes" },
    { name := "process_load", regexp := some (matchDigitsAfter "load-proc-"),
      labelNames := ["id"], value := .gauge,
      help := "he real time load of the OpenSIPS process #id" }]),
  ("msilo", [
    { name := "stored_messages_total", stat := "stored_messages", value := .counter,
      help := "Total number of stored messages" },
    { name := "dumped_messages_total", stat := "dumped_messages", value := .counter,
      help := "Total number of dumped messages" },
    { name := "failed_messages_total", stat := "failed_messages", value := .counter,
      help := "Total number of failed messages" },
    { name := "dumped_reminders_total", stat := "dumped_reminders", value := .counter,
      help := "Total number of dumped reminders" },
    { name := "failed_reminders_total", stat := "failed_reminders", value := .counter,
      help := "Total number of failed reminders" }]),
  ("nat_traversal", [
    { name := "keepalive_endpoints", stat := "keepalive_endpoints", value := .gauge,
      help := "Current number of keepalive endpoints" },
    { name := "registered_endpoints", stat := "registered_endpoints", value := .gauge,
      help := "Current number of registered endpoints" },
    { name := "subscribed_endpoints", stat := "subscribed_endpoints", value := .gauge,
      help := "Current number of subscribed endpoints" },
    { name := "dialog_endpoints", stat := "dialog_endpoints", value := .gauge,
      help := "Current number of dialog endpoints" }]),
  ("net", [
    { name := "waiting_bytes", regexp := some (matchCapAfter "waiting_"),
      labelNames := ["transport"], value := .gauge,
      help := "The number of bytes waiting to be consumed on interfaces that OpenSIPS is listening on" }]),
  ("pkmem", [
    { name := "total_size_bytes", regexp := some (matchDigitsBefore "-total_size"),
      labelNames := ["id"], value := .gauge,
      help := "The total size of private memory available to OpenSIPS process #id" },
    { name := "used_size_bytes", regexp := some (matchDigitsBefore "-used_size"),
      labelNames := ["id"], value := .gauge,
      help := "The total size of private memory used by OpenSIPS process #id" },
    { name := "real_used_size_bytes", regexp := some (matchDigitsBefore "-real_used_size"),
      labelNames := ["id"], value := .gauge,
      help := "The total size of private memory (including overhead) used by OpenSIPS process #id" },
    { name := "max_used_size_bytes", regexp := some (matchDigitsBefore "-max_used_size"),
      labelNames := ["id"], value := .gauge,
      help := "The maximum amount of private memory ever used by OpenSIPS process #id" },
    { name := "free_size_bytes", regexp := some (matchDigitsBefore "-free_size"),
      labelNames := ["id"], value := .gauge,
      help := "The free private memory available for OpenSIPS process #id" },
    { name := "fragments", regexp := some (matchDigitsBefore "-fragments"),
      labelNames := ["id"], value := .gauge,
      help := "The number of fragments in the private memory for OpenSIPS process #" }]),
  ("registrar", [
    { name := "max_expires", stat := "max_expires", value := .gauge,
      help := "The value of the max_expires module parameter" },
    { name := "max_contacts", stat := "max_contacts", value := .gauge,
      help := "The value of the max_contacts module parameter" },
    { name := "default_expires", stat := "default_expire", value := .gauge,
      help := "The value of the default_expires module parameter" },
    { name := "accepted_registrations_total", stat := "accepted_registrations", value := .counter,
      help := "Total number of accepted registrations" },
    { name := "rejected_registrations_total", stat := "rejected_registrations", value := .counter,
      help := "Total number of rejected registrations" }]),
  ("shmem", [
    { name := "total_size_bytes", stat := "total_size", value := .gauge,
      help := "The total size of shared memory available to OpenSIPS processes" },
    { name := "used_size_bytes", stat := "used_size", value := .gauge,
      help := "The total size of shared memory used by OpenSIPS processes" },
    { name := "real_used_size_bytes", stat := "real_used_size", value := .gauge,
      help := "The total size of shared memory used (including overhead) by OpenSIPS processes" },
    { name := "max_used_size_bytes", stat := "max_used_size", value := .gauge,
      help := "The maximum amount of shared memory used by OpenSIPS processes" },
    { name := "free_size_bytes", stat := "free_size", value := .gauge,
      help := "The amount of free shared memory available to OpenSIPS processes" },
    { name := "fragments", stat := "fragments", value := .gauge,
      help := "The number of fragments in the shared memory used by OpenSIPS processes" }]),
  ("sipcapture", [
    { name := "captured_requests_total", stat := "captured_requests", value := .counter,
      help := "Total number of SIP requests captured" },
    { name := "captured_replies_total", stat := "captured_replies", value := .counter,
      help := "Total number of SIP replies captured" }]),
  ("siptrace", [
    { name := "traced_requests_total", stat := "traced_requests", value := .counter,
      help := "Total number of traced requests" },
    { name := "traced_replies_total", stat := "traced_replies", value := .counter,
      help := "Total number of traced replies" }]),
  ("sl", [
    { name := "sent_replies", regexp := some (matchCodeClass "_replies"),
      labelNames := ["code"], value := .counter,
      help := "Total number of sent replies by status code" },
    { name := "sent_replies_total", stat := "sent_replies", value := .counter,
      help := "Total number of sent replies" },
    { name := "sent_error_replies_total", stat := "sent_err_replies", value := .counter,
      help := "Total number of sent error replies" },
    { name := "received_acks_total", stat := "received_ACKs", value := .counter,
      help := "Total number of ACK replies received" }]),
  ("sst", [
    { name := "expired_sst_total", stat := "expired_sst", value := .counter,
      help := "Total number of expired SST sessions" }]),
  ("tm", [
    { name := "received_replies_total", stat := "received_replies", value := .counter,
      help := "Total number of replies received" },
    { name := "relayed_replies_total", stat := "relayed_replies", value := .counter,
      help := "Total number of replies relayed" },
    { name := "local_replies_total", stat := "local_replies", value := .counter,
      help := "Total number of local replies sent" },
    { name := "uas_transactions_total", stat := "UAS_transactions", value := .counter,
      help := "Total number of UAS transactions" },
    { name := "uac_transactions_total", stat := "UAC_transactions", value := .counter,
      help := "Total number of UAC transactions" },
    { name := "transactions_total", regexp := some (matchCodeClass "_transactions"),
      labelNames := ["code"], value := .counter,
      help := "Total number of transactions by status code" },
    { name := "inuse_transactions", stat := "inuse_transactions", value := .gauge,
      help := "Number of transactions currently in-use" }]),
  ("uri", [
    { name := "positive_checks_total", stat := "positive_checks", value := .counter,
      help := "Total number of positive URI checks" },
    { name := "negative_checks_total", stat := "negative_checks", value := .counter,
      help := "Total number of negative URI checks" }]),
  ("usrloc", [
    { name := "registered_users", stat := "registered_users", value := .gauge,
      help := "Current number of registered users" }])]

/-! ### The statistics matcher -/

/-- One iteration of the definition loop in collectStats: a pattern
definition matches through its regexp and yields the capture list, a
literal definition matches by exact string equality and yields no
labels. -/
def statMatch (st : StatDef) (metric : String) : Option (List String) :=
  match st.regexp with
  | some re => re metric
  | none => if metric = st.stat then some [] else none

/-- The definition loop of collectStats (source lines 191–202): scan
the subsystem's definitions in catalog order and stop at the first
match (`break`). -/
def findStat : List StatDef → String → Option (StatDef × List String)
  | [], _ => none
  | st :: rest, metric =>
    match statMatch st metric with
    | some caps => some (st, caps)
    | none => findStat rest metric

/-- One metric emission sent to the collector channel. -/
inductive Metric where
  | up (v : ℚ)
  | versionInfo (labels : List String)
  | processInfo (id ptype : String)
  | stat (subsys name : String) (labelNames : List String)
      (value : VKind) (sample : ℚ) (labels : List String)
  | profileValues (labelNames labelValues : List String) (count : ℚ)
  | profileFallback (profile value : String) (count : ℚ)
deriving DecidableEq, Repr

/-- The metrics produced by one entry of the statistics dump (one
iteration of the collectStats range loop, source lines 170–203,
without the uptime tracking): entries without a colon, entries whose
value fails float parsing, subsystems absent from the catalog and flat
names matching no definition all produce nothing. -/
def statEntryMetrics (statName statValue : String) : List Metric :=
  match splitFirstColon statName with
  | none => []
  | some (subsys, raw) =>
    let metric := replaceSpaces raw
    match parseGoFloat statValue with
    | none => []
    | some value =>
      match findPair opensipsStats subsys with
      | none => []
      | some defs =>
        match findStat defs metric with
        | none => []
        | some (st, caps) =>
          [Metric.stat subsys st.name st.labelNames st.value value caps]

/-- The collectStats range loop over the dump entries, threading the
reference uptime: `uptime` is set to the entry's parsed value when the
full statistic name is `core:timestamp`. -/
def collectStatsLoop : List (String × String) → ℚ → List Metric × ℚ
  | [], u => ([], u)
  | (sn, sv) :: rest, u =>
    match splitFirstColon sn with
    | none => collectStatsLoop rest u
    | some (subsys, raw) =>
      let metric := replaceSpaces raw
      match parseGoFloat sv with
      | none => collectStatsLoop rest u
      | some value =>
        let u1 := if sn = "core:timestamp" then value else u
        match findPair opensipsStats subsys with
        | none => collectStatsLoop rest u1
        | some defs =>
          match findStat defs metric with
          | none => collectStatsLoop rest u1
          | some (st, caps) =>
            let r := collectStatsLoop rest u1
            (Metric.stat subsys st.name st.labelNames st.value value caps :: r.1, r.2)

/-! ### Dialog profile value parsing

`profileValuesRegexp` is the Go regexp
`(?:^|,)([a-z0-9_]+)=([^,]*)`
and `FindAllStringSubmatch(v, -1)` collects its successive leftmost
matches.  Since `=` is not a key character, the greedy key run allows
no backtracking, so a match at a position exists exactly when the
position is the string start or a comma, followed by a non-empty run
of `[a-z0-9_]` characters and then `=`; the value is everything up to
the next comma.  The scanner below walks the positions left to right,
restarting after each match, exactly as the Go matcher does. -/

/-- Character class `[a-z0-9_]` of profileValuesRegexp. -/
def isKeyChar (c : Char) : Bool :=
  (decide ('a' ≤ c) && decide (c ≤ 'z')) || c.isDigit || c == '_'

/-- Try to match `([a-z0-9_]+)=([^,]*)` at the head of `cs`; on
success return the (key, value) capture pair and the remainder of the
input after the match. -/
def tryBareAt (cs : List Char) : Option ((String × String) × List Char) :=
  let key := cs.takeWhile isKeyChar
  match cs.dropWhile isKeyChar with
  | c :: r2 =>
    if c = '=' && !key.isEmpty then
      some ((String.mk key, String.mk (r2.takeWhile (fun c => c != ','))),
        r2.dropWhile (fun c => c != ','))
    else none
  | [] => none

/-- Try to match the full pattern `(?:^|,)([a-z0-9_]+)=([^,]*)` at the
current scan position; the `^` alternative applies only at the very
start of the text (`atZero`). -/
def tryMatchAt (cs : List Char) (atZero : Bool) : Option ((String × String) × List Char) :=
  match (if atZero then tryBareAt cs else none) with
  | some r => some r
  | none =>
    match cs with
    | c :: cs2 => if c = ',' then tryBareAt cs2 else none
    | [] => none

/-- The dropWhile remainder never grows. -/
theorem dropWhile_length_le (p : Char → Bool) :
    ∀ l : List Char, (l.dropWhile p).length ≤ l.length := by
  intro l
  induction l with
  | nil => simp [List.dropWhile]
  | cons c t ih => by_cases h : p c <;> simp [List.dropWhile, h] <;> omega

/-- takeWhile and dropWhile split the length of a list. -/
theorem takeWhile_add_dropWhile_length (p : Char → Bool) (l : List Char) :
    (l.takeWhile p).length + (l.dropWhile p).length = l.length := by
  conv_rhs => rw [← List.takeWhile_append_dropWhile (p := p) (l := l)]
  rw [List.length_append]

/-- A successful match consumes at least the key and the equals sign,
so the scanner's remaining input shrinks. -/
theorem tryBareAt_shrinks (cs : List Char) (p : String × String) (rest : List Char)
    (h : tryBareAt cs = some (p, rest)) : rest.length < cs.length := by
  unfold tryBareAt at h
  rcases hd : cs.dropWhile isKeyChar with _ | ⟨c, r2⟩ <;> rw [hd] at h
  · simp at h
  · dsimp only at h
    by_cases hcond : (c = '=' && !(cs.takeWhile isKeyChar).isEmpty) = true
    · rw [if_pos hcond] at h
      have hrest : rest = r2.dropWhile (fun c => c != ',') := by
        have := (Option.some.inj h)
        exact (congrArg Prod.snd this).symm
      have hkey : cs.takeWhile isKeyChar ≠ [] := by
        intro hnil
        rw [hnil] at hcond
        simp at hcond
      have hkl : 0 < (cs.takeWhile isKeyChar).length := List.length_pos.mpr hkey
      have hsplit := takeWhile_add_dropWhile_length isKeyChar cs
      rw [hd] at hsplit
      have hr2 : (r2.dropWhile (fun c => c != ',')).length ≤ r2.length :=
        dropWhile_length_le _ _
      have hrl := congrArg List.length hrest
      simp at hsplit hrl
      omega
    · rw [if_neg hcond] at h
      simp at h

/-- Same bound for the full pattern. -/
theorem tryMatchAt_shrinks (cs : List Char) (b : Bool) (p : String × String)
    (rest : List Char) (h : tryMatchAt cs b = some (p, rest)) :
    rest.length < cs.length := by
  unfold tryMatchAt at h
  rcases hb : (if b then tryBareAt cs else none) with _ | r <;> rw [hb] at h
  · rcases hc : cs with _ | ⟨c, cs2⟩ <;> rw [hc] at h
    · simp at h
    · dsimp only at h
      by_cases hcq : c = ','
      · rw [if_pos hcq] at h
        have := tryBareAt_shrinks cs2 p rest h
        simp
        omega
      · rw [if_neg hcq] at h
        simp at h
  · have hr : r = (p, rest) := Option.some.inj h
    rcases b with _ | _
    · simp at hb
    · simp at hb
      rw [hr] at hb
      exact tryBareAt_shrinks cs p rest hb

/-- The FindAll scan: try a match at each position left to right,
resuming after the end of each match.  Each step consumes at least one
character of the input, so running the scan with the input length as
fuel computes the unbounded scan (`scanPairs_fuel_irrelevant` below);
the fuel form keeps the definition structurally recursive. -/
def scanPairs : Nat → List Char → Bool → List (String × String)
  | 0, _, _ => []
  | _, [], _ => []
  | fuel + 1, c :: cs, atZero =>
    match tryMatchAt (c :: cs) atZero with
    | some (pair, rest) => pair :: scanPairs fuel rest false
    | none => scanPairs fuel cs false

/-- Any fuel of at least the input length computes the same scan, so
`scanPairs` with fuel `cs.length` is the total scan function. -/
theorem scanPairs_fuel_irrelevant :
    ∀ (f1 f2 : Nat) (cs : List Char) (b : Bool), cs.length ≤ f1 → cs.length ≤ f2 →
      scanPairs f1 cs b = scanPairs f2 cs b := by
  intro f1
  induction f1 using Nat.strong_induction_on with
  | _ f1 ih =>
    intro f2 cs b h1 h2
    rcases cs with _ | ⟨c, cs⟩
    · rcases f1 with _ | g1 <;> rcases f2 with _ | g2 <;> rfl
    · rcases f1 with _ | g1
      · simp at h1
      · rcases f2 with _ | g2
        · simp at h2
        · simp only [scanPairs]
          rcases hm : tryMatchAt (c :: cs) b with _ | ⟨pair, rest⟩ <;> simp only [hm]
          · simp only [List.length_cons] at h1 h2
            exact ih g1 (by omega) g2 cs false (by omega) (by omega)
          · have hlt := tryMatchAt_shrinks _ _ _ _ hm
            simp only [List.length_cons] at h1 h2
            simp only [List.length_cons] at hlt
            rw [ih g1 (by omega) g2 rest false (by omega) (by omega)]

/-- Model of `profileValuesRegexp.FindAllStringSubmatch(v, -1)`, as
the ordered list of (key, value) capture pairs; the empty list models
the Go `nil` result. -/
def findAllProfilePairs (s : String) : List (String × String) :=
  scanPairs s.toList.length s.toList true

/-! ### The capability cache and the collection pass -/

/-- The four cached fields of the exporter (`commands`, `processes`,
`profiles`, `lastUptime`).  The Go `map[string]bool` command set is
modelled by the list of discovered command names, the profile map by
an association list in iteration order; the nil `processes` slice and
the empty slice are indistinguishable to the code and both modelled
by `[]`. -/
structure CacheState where
  commands : List String
  processes : List (String × String)
  profiles : List (String × Bool)
  lastUptime : ℚ
deriving DecidableEq, Repr

/-- A command issued to the monitored system: name and arguments. -/
abbrev GoCmd := String × List String

/-- The injected command executor (the `opensips_mi.Client`): a
response tree or a transport/protocol/decode error per command. -/
structure Conn where
  command : String → List String → Except String MINode

/-- Model of `collectVersionInfo` (main.go lines 112–122).  The Go
`versionRegexp` submatch (an engine of the standard library, not of
this repository) is abstracted as the parameter `vm` returning the
four capture values when the Server string matches. -/
def collectVersionInfo (vm : String → Option (List String)) (conn : Conn) :
    Except String (List Metric) :=
  match conn.command "version" [] with
  | .error e => .error e
  | .ok resp =>
    match vm (goGet resp.childValues "Server") with
    | some groups => .ok [Metric.versionInfo groups]
    | none => .ok []

/-- Model of `fetchCommands` (main.go lines 124–137): probe `which`
and replace the command set; a failed probe leaves the cache as is. -/
def fetchCommands (conn : Conn) (st : CacheState) : CacheState :=
  match conn.command "which" [] with
  | .error _ => st
  | .ok resp => { st with commands := resp.children.map MINode.value }

/-- Model of `collectProcessInfo` (main.go lines 139–163): refresh the
process cache from `ps` when `update` is set (a failed probe emits
nothing), then emit one row per cached (ID, trimmed Type) pair. -/
def collectProcessInfo (conn : Conn) (st : CacheState) (update : Bool) :
    List Metric × CacheState × List GoCmd :=
  if update then
    match conn.command "ps" [] with
    | .error _ => ([], st, [("ps", [])])
    | .ok resp =>
      let procs := resp.children.map
        (fun c => (goGet c.attrs "ID", goTrim (goGet c.attrs "Type")))
      (procs.map (fun p => Metric.processInfo p.1 p.2),
        { st with processes := procs }, [("ps", [])])
  else
    (st.processes.map (fun p => Metric.processInfo p.1 p.2), st, [])

/-- Model of `collectStats` (main.go lines 165–206): fetch the full
statistics dump and run the entry loop; a failed fetch reports uptime
zero and no metrics. -/
def collectStats (conn : Conn) : List Metric × ℚ × List GoCmd :=
  match conn.command "get_statistics" ["all"] with
  | .error _ => ([], 0, [("get_statistics", ["all"])])
  | .ok resp =>
    let r := collectStatsLoop (resp.childValues.getD []) 0
    (r.1, r.2, [("get_statistics", ["all"])])

/-- The per-node emission of the dialog profile loop (main.go lines
241–272): parse the `count` attribute (skip the node on failure), then
emit the dynamically labelled metric when the value string yields at
least one key=value pair, or the two-label fallback otherwise. -/
def profileNodeMetrics (profile : String) (nd : MINode) : List Metric :=
  match parseGoFloat (goGet nd.attrs "count") with
  | none => []
  | some count =>
    let pairs := findAllProfilePairs nd.value
    if pairs.isEmpty then [Metric.profileFallback profile nd.value count]
    else
      [Metric.profileValues ("profile" :: pairs.map Prod.fst)
        (profile :: pairs.map Prod.snd) count]

/-- The per-profile loop of `collectDialogProfiles` (main.go lines
231–273): profiles not flagged as carrying values are skipped without
any fetch; a failed per-profile fetch skips just that profile. -/
def profileLoop (conn : Conn) : List (String × Bool) → List Metric × List GoCmd
  | [] => ([], [])
  | (profile, hasValues) :: rest =>
    if hasValues then
      match conn.command "profile_get_values" [profile] with
      | .error _ =>
        let r := profileLoop conn rest
        (r.1, ("profile_get_values", [profile]) :: r.2)
      | .ok resp =>
        let r := profileLoop conn rest
        ((resp.children.map (profileNodeMetrics profile)).join ++ r.1,
          ("profile_get_values", [profile]) :: r.2)
    else profileLoop conn rest

/-- Model of `collectDialogProfiles` (main.go lines 210–274): when
`update` is set, refresh the profile cache from `list_all_profiles`,
flagging each profile as carrying per-key values exactly when its
reported value string differs from `"0"`; then run the per-profile
loop over the cached profiles. -/
def collectDialogProfiles (conn : Conn) (st : CacheState) (update : Bool) :
    List Metric × CacheState × List GoCmd :=
  if update then
    match conn.command "list_all_profiles" [] with
    | .error _ => ([], st, [("list_all_profiles", [])])
    | .ok resp =>
      let profs := (resp.childValues.getD []).map (fun p => (p.1, p.2 != "0"))
      let st1 := { st with profiles := profs }
      let r := profileLoop conn st1.profiles
      (r.1, st1, ("list_all_profiles", []) :: r.2)
  else
    let r := profileLoop conn st.profiles
    (r.1, st, r.2)

/-- The end-of-pass restart check (main.go lines 95–107): when the
pass's reference uptime is strictly below the cached `lastUptime`, all
four fields are reset together (`lastUptime` to the observed uptime);
otherwise nothing is written. -/
def restartCheck (uptime : ℚ) (st : CacheState) : CacheState :=
  if uptime < st.lastUptime then ⟨[], [], [], uptime⟩ else st

/-- The observable outcome of one collection pass: the metrics sent to
the channel in order, the cache state at the end, the commands issued
to the monitored system, and the pass's observed reference uptime. -/
structure PassResult where
  metrics : List Metric
  state : CacheState
  trace : List GoCmd
  uptime : ℚ
deriving Repr

/-- Model of `Collect` (main.go lines 51–108), one collection pass.
`conn?` is the result of `NewMIJsonClient`; the deferred `up` gauge is
the last metric of the pass, with value 0 when the connection or the
version probe failed (in which case nothing else runs) and 1
otherwise. -/
def Collect (vm : String → Option (List String)) (conn? : Except String Conn)
    (st : CacheState) : PassResult :=
  match conn? with
  | .error _ => ⟨[Metric.up 0], st, [], 0⟩
  | .ok conn =>
    match collectVersionInfo vm conn with
    | .error _ => ⟨[Metric.up 0], st, [("version", [])], 0⟩
    | .ok vms =>
      let hasCommands := !st.commands.isEmpty
      let hasProcesses := !st.processes.isEmpty
      let hasProfiles := !st.profiles.isEmpty
      let st1 := if !hasCommands then fetchCommands conn st else st
      let tr1 : List GoCmd := if !hasCommands then [("which", [])] else []
      let hasStatisticsCommand := st1.commands.contains "get_statistics"
      let hasProfilesCommand := st1.commands.contains "list_all_profiles"
      let pr := collectProcessInfo conn st1 (!hasProcesses)
      let sr := if hasStatisticsCommand then collectStats conn else ([], 0, [])
      let dr := if hasProfilesCommand then collectDialogProfiles conn pr.2.1 (!hasProfiles)
        else ([], pr.2.1, [])
      let uptime := sr.2.1
      let st4 := restartCheck uptime dr.2.1
      ⟨vms ++ pr.1 ++ sr.1 ++ dr.1 ++ [Metric.up 1], st4,
        ("version", []) :: (tr1 ++ pr.2.2 ++ sr.2.2 ++ dr.2.2), uptime⟩

/-! ### Concrete fixtures used by the claim witnesses -/

/-- A version matcher that never matches (the version metric is
irrelevant to the cache claims). -/
def vmNone : String → Option (List String) := fun _ => none

/-- A monitored system whose statistics dump reports only the
`core:timestamp` statistic, with the given value. -/
def connStats (ts : String) : Conn :=
  ⟨fun cmd _ =>
    if cmd = "version" then .ok (.mk "" "" none [] (some [("Server", "x")]))
    else if cmd = "which" then
      .ok (.mk "" "" none [.mk "" "get_statistics" none [] none] none)
    else if cmd = "get_statistics" then
      .ok (.mk "" "" none [] (some [("core:timestamp", ts)]))
    else .error "no"⟩

/-- The exporter's initial cache: empty maps, nil process list and
`lastUptime` zero (the Go zero values). -/
def initCache : CacheState := ⟨[], [], [], 0⟩

/-! ### Helper facts about the association-list map model -/

/-- The string-valued entries of a JSON object in iteration order: the
leaf children the implicit-map branch produces. -/
def strEntries (l : List (String × Json)) : List (String × String) :=
  l.filterMap (fun kv =>
    match kv.2 with
    | .str s => some (kv.1, s)
    | _ => none)

/-- Folding a list of writes into the association-list map. -/
def insertAll (cv : List (String × String)) (ps : List (String × String)) :
    List (String × String) :=
  ps.foldl (fun acc p => goInsertL acc p.1 p.2) cv

theorem findPair_goInsertL_self : ∀ (l : List (String × String)) (k v : String),
    findPair (goInsertL l k v) k = some v := by
  intro l
  induction l with
  | nil => intro k v; simp [goInsertL, findPair]
  | cons p rest ih =>
    intro k v
    obtain ⟨k0, v0⟩ := p
    by_cases hk : k0 = k <;> simp [goInsertL, findPair, hk, ih]

theorem findPair_goInsertL_other : ∀ (l : List (String × String)) (k v k2 : String),
    k2 ≠ k → findPair (goInsertL l k v) k2 = findPair l k2 := by
  intro l
  induction l with
  | nil => intro k v k2 h; simp [goInsertL, findPair, Ne.symm h]
  | cons p rest ih =>
    intro k v k2 h
    obtain ⟨k0, v0⟩ := p
    by_cases hk : k0 = k
    · subst hk
      simp only [goInsertL, if_pos rfl]
      have : ¬ k0 = k2 := fun hh => h (hh ▸ rfl)
      simp [findPair, this]
    · simp only [goInsertL, if_neg hk]
      by_cases h2 : k0 = k2 <;> simp [findPair, h2, ih _ _ _ h]

/-- A key present in the map stays present through later writes. -/
theorem findPair_insertAll_pres : ∀ (ps cv : List (String × String)) (k : String),
    (findPair cv k).isSome → (findPair (insertAll cv ps) k).isSome := by
  intro ps
  induction ps with
  | nil => intro cv k h; simpa [insertAll] using h
  | cons p rest ih =>
    intro cv k h
    simp only [insertAll, List.foldl_cons]
    apply ih
    by_cases hk : k = p.1
    · subst hk
      rw [findPair_goInsertL_self]
      rfl
    · rw [findPair_goInsertL_other _ _ _ _ hk]
      exact h

/-- Every written key is present in the final map. -/
theorem findPair_insertAll_mem : ∀ (ps cv : List (String × String))
    (k v : String), (k, v) ∈ ps → (findPair (insertAll cv ps) k).isSome := by
  intro ps
  induction ps with
  | nil => intro cv k v h; simp at h
  | cons p rest ih =>
    intro cv k v h
    rcases List.mem_cons.mp h with h | h
    · subst h
      simp only [insertAll, List.foldl_cons]
      apply findPair_insertAll_pres
      rw [findPair_goInsertL_self]
      rfl
    · exact ih _ _ _ h

/-- Field-level description of the implicit-map loop: string-valued
keys become leaf children in iteration order, and the childValues map
receives exactly those writes. -/
theorem implicitMapAux_spec : ∀ (l : List (String × Json)) (n : MINode)
    (cv : List (String × String)), n.childValues = some cv →
    (implicitMapAux n l).name = n.name ∧
    (implicitMapAux n l).value = n.value ∧
    (implicitMapAux n l).attrs = n.attrs ∧
    (implicitMapAux n l).children =
      n.children ++ (strEntries l).map (fun p => MINode.mk p.1 p.2 none [] none) ∧
    (implicitMapAux n l).childValues = some (insertAll cv (strEntries l)) := by
  intro l
  induction l with
  | nil =>
    intro n cv h
    simp [implicitMapAux, strEntries, insertAll, h]
  | cons kv rest ih =>
    intro n cv h
    obtain ⟨k, v⟩ := kv
    rcases n with ⟨a, b, at_, ch, cvv⟩
    simp only [MINode.childValues] at h
    subst h
    rcases v with s | i | b0 | _ | l2 | m2
    · have hstep := ih (.mk a b at_ (ch ++ [.mk k s none [] none])
        (some (goInsertL cv k s))) (goInsertL cv k s) rfl
      simp only [implicitMapAux, MINode.appendChild, MINode.withChildValues,
        MINode.childValues, Option.getD] at hstep ⊢
      simp only [MINode.name, MINode.value, MINode.attrs, MINode.children] at hstep ⊢
      refine ⟨hstep.1, hstep.2.1, hstep.2.2.1, ?_, ?_⟩
      · rw [hstep.2.2.2.1]
        simp [strEntries]
      · rw [hstep.2.2.2.2]
        simp [strEntries, insertAll]
    all_goals
      have hstep := ih (.mk a b at_ ch (some cv)) cv rfl
      simpa [implicitMapAux, strEntries] using hstep

/-! ### C1 -/

/-- C1: evaluation of the source's cache-invalidation logic on the
spec's own restart example.  Starting from the initial cache, a pass
observing reference uptime 500 never records 500 into `lastUptime`
(`lastUptime` is written only inside the invalidation branch), so the
following pass observing uptime 10 compares 10 against 0, detects no
restart, and clears nothing: the commands cache survives and
`lastUptime` is still 0 after both passes, where the claim demands all
four fields be cleared by the second pass. -/
theorem C1_restart_example_not_invalidated :
    ((Collect vmNone (.ok (connStats "500")) initCache).uptime = 500 ∧
      (Collect vmNone (.ok (connStats "500")) initCache).state =
        ⟨["get_statistics"], [], [], 0⟩) ∧
    ((Collect vmNone (.ok (connStats "10"))
        ⟨["get_statistics"], [], [], 0⟩).uptime = 10 ∧
      (Collect vmNone (.ok (connStats "10"))
        ⟨["get_statistics"], [], [], 0⟩).state =
        ⟨["get_statistics"], [], [], 0⟩) := by
  exact ⟨⟨rfl, rfl⟩, ⟨rfl, rfl⟩⟩

/-! ### C2 -/

/-- C2: the decoder is not total — it crashes.  A map whose `children`
key holds a list with one element decoding to a named node reaches the
`ChildValues` write in `fromJsonList` with `ChildValues` still the nil
map, a Go runtime panic ("assignment to entry in nil map"), where the
claim demands a decoded node or a decode error on every input. -/
theorem C2_decoder_crashes_on_named_list_child :
    fromJson MINode.empty
      (.obj [("children", .arr [.obj [("name", .str "a"), ("value", .str "1")]])]) =
      .crash "assignment to entry in nil map" := by
  simp [fromJson, fromJsonList, fromJsonListAux, childrenShape, probeStr, probeObj,
    findKey, MINode.empty, MINode.withName, MINode.withValue, MINode.withChildren,
    MINode.appendChild, MINode.childValues, MINode.name, MINode.value, singletonArr]

/-! ### C3 -/

/-- C3: the list decoder does not implement the claimed childValues
accumulation — it crashes on the first named element.  `fromJsonList`
never initialises `n.ChildValues`, and every call site passes a node
whose `ChildValues` is the nil map, so a list whose element decodes to
a node with a non-empty name panics instead of recording the entry. -/
theorem C3_list_decoder_crashes_on_named_element :
    fromJsonList MINode.empty [.obj [("name", .str "a"), ("value", .str "1")]] =
      .crash "assignment to entry in nil map" := by
  simp [fromJson, fromJsonList, fromJsonListAux, childrenShape, probeStr, probeObj,
    findKey, MINode.empty, MINode.withName, MINode.withValue, MINode.withChildren,
    MINode.appendChild, MINode.childValues, MINode.name, MINode.value, singletonArr]

/-! ### C4 -/

/-- C4 counterexample: on the implicit map `\x7b"a": 1\x7d` — not an
explicit node, not a singleton-wrapped array, and carrying a key whose
value is a number — the decoder returns success with no children,
where the claim demands a decode error for a number-valued key. -/
theorem C4_counterexample_number_key_not_an_error :
    fromJson MINode.empty (.obj [("a", Json.num 1)]) =
      .ok (.mk "" "" none [] (some [])) := by
  simp [fromJson, childrenShape, probeStr, probeObj, findKey, MINode.empty,
    implicitMap, implicitMapAux, MINode.withChildren, MINode.withChildValues,
    singletonArr]

/-- C4 as amended: for every map that is neither an explicit node nor
a singleton-wrapped array, decoding succeeds; every string-valued key
becomes a (name, value) leaf child in iteration order and gets a
childValues entry, and keys with any other value type (map, list,
number, boolean, null) are silently skipped — no child, no entry, no
error. -/
theorem C4_implicit_map_amended (n : MINode) (mapval : List (String × Json))
    (h1 : probeStr mapval "name" = none)
    (h2 : probeStr mapval "value" = none)
    (h3 : probeObj mapval "attributes" = none)
    (h4 : childrenShape mapval = none)
    (h5 : singletonArr mapval = none) :
    ∃ nd, fromJson n (.obj mapval) = .ok nd ∧
      nd.name = n.name ∧ nd.value = n.value ∧ nd.attrs = n.attrs ∧
      nd.children =
        (strEntries mapval).map (fun p => MINode.mk p.1 p.2 none [] none) ∧
      nd.childValues = some (insertAll [] (strEntries mapval)) ∧
      ∀ p ∈ strEntries mapval,
        (findPair (insertAll [] (strEntries mapval)) p.1).isSome := by
  refine ⟨implicitMap n mapval, ?_, ?_⟩
  · simp only [fromJson, h1, h2, h3, implicitMap]
    split <;> try simp_all
    split <;> simp_all
  · have hspec := implicitMapAux_spec mapval
      ((n.withChildren []).withChildValues (some [])) [] (by
        rcases n with ⟨a, b, at_, ch, cv⟩
        rfl)
    rcases n with ⟨a, b, at_, ch, cv⟩
    simp only [implicitMap, MINode.withChildren, MINode.withChildValues,
      MINode.name, MINode.value, MINode.attrs, MINode.children,
      MINode.childValues] at hspec ⊢
    refine ⟨hspec.1, hspec.2.1, hspec.2.2.1, by simpa using hspec.2.2.2.1,
      hspec.2.2.2.2, ?_⟩
    intro p hp
    exact findPair_insertAll_mem _ _ _ _ hp

/-- C4 amended, witness: the map `\x7b"a": 1, "b": "x"\x7d` decodes to
a node whose only child is the leaf (b, x), with a childValues entry
for it and the number-valued key dropped. -/
theorem C4_implicit_map_amended_witness :
    ∃ nd, fromJson MINode.empty (.obj [("a", Json.num 1), ("b", Json.str "x")]) =
      .ok nd ∧
      nd.name = MINode.empty.name ∧ nd.value = MINode.empty.value ∧
      nd.attrs = MINode.empty.attrs ∧
      nd.children = (strEntries [("a", Json.num 1), ("b", Json.str "x")]).map
        (fun p => MINode.mk p.1 p.2 none [] none) ∧
      nd.childValues =
        some (insertAll [] (strEntries [("a", Json.num 1), ("b", Json.str "x")])) ∧
      ∀ p ∈ strEntries [("a", Json.num 1), ("b", Json.str "x")],
        (findPair (insertAll []
          (strEntries [("a", Json.num 1), ("b", Json.str "x")])) p.1).isSome :=
  C4_implicit_map_amended MINode.empty [("a", Json.num 1), ("b", Json.str "x")]
    rfl rfl rfl rfl rfl

/-! ### C5 -/

/-- The matcher loop returns the first matching definition: the
returned definition matches, and every definition before it in catalog
order does not. -/
theorem findStat_first : ∀ (defs : List StatDef) (m : String) (st : StatDef)
    (caps : List String), findStat defs m = some (st, caps) →
    statMatch st m = some caps ∧
    ∃ pre post, defs = pre ++ st :: post ∧ ∀ d ∈ pre, statMatch d m = none := by
  intro defs
  induction defs with
  | nil => intro m st caps h; simp [findStat] at h
  | cons d rest ih =>
    intro m st caps h
    simp only [findStat] at h
    rcases hm : statMatch d m with _ | caps0 <;> rw [hm] at h
    · obtain ⟨hmm, pre, post, hsplit, hpre⟩ := ih m st caps h
      refine ⟨hmm, d :: pre, post, by rw [hsplit]; rfl, ?_⟩
      intro d2 hd2
      rcases List.mem_cons.mp hd2 with h2 | h2
      · subst h2; exact hm
      · exact hpre d2 h2
    · obtain ⟨h1, h2⟩ := Prod.mk.injEq .. ▸ Option.some.inj h
      subst h1
      subst h2
      exact ⟨hm, [], rest, rfl, by intro d2 hd2; simp at hd2⟩

/-- When the loop falls through, no definition matches. -/
theorem findStat_none : ∀ (defs : List StatDef) (m : String),
    findStat defs m = none → ∀ d ∈ defs, statMatch d m = none := by
  intro defs
  induction defs with
  | nil => intro m h d hd; simp at hd
  | cons d0 rest ih =>
    intro m h d hd
    simp only [findStat] at h
    rcases hm : statMatch d0 m with _ | caps0 <;> rw [hm] at h
    · rcases List.mem_cons.mp hd with h2 | h2
      · subst h2; exact hm
      · exact ih m h d h2
    · cases h

/-- One dump entry emits at most one metric. -/
theorem statEntryMetrics_length (sn sv : String) :
    (statEntryMetrics sn sv).length ≤ 1 := by
  unfold statEntryMetrics
  rcases splitFirstColon sn with _ | ⟨subsys, raw⟩
  · simp
  · simp only
    rcases parseGoFloat sv with _ | value
    · simp
    · simp only
      rcases findPair opensipsStats subsys with _ | defs
      · simp
      · simp only
        rcases findStat defs (replaceSpaces raw) with _ | ⟨st, caps⟩ <;> simp

/-- C5: the matcher scans the subsystem's definitions in catalog
order and stops at the first match; a literal definition matches by
exact string equality and yields no labels; each pattern definition
yields its captures in group declaration order; consequently one flat
name emits at most one metric.  The concrete instances exercise a
literal match, a pattern match with its extracted label, and the
catalog-order tie (in `sl`, `2xx_replies` is claimed by the pattern
definition that precedes the literal `sent_replies`). -/
theorem C5_stat_matcher :
    (∀ defs m st caps, findStat defs m = some (st, caps) →
      statMatch st m = some caps ∧
      ∃ pre post, defs = pre ++ st :: post ∧ ∀ d ∈ pre, statMatch d m = none) ∧
    (∀ defs m, findStat defs m = none → ∀ d ∈ defs, statMatch d m = none) ∧
    (∀ d m caps, d.regexp = none →
      (statMatch d m = some caps ↔ m = d.stat ∧ caps = [])) ∧
    (∀ sn sv, (statEntryMetrics sn sv).length ≤ 1) ∧
    statEntryMetrics "core:rcv_requests" "42" =
      [Metric.stat "core" "received_requests_total" [] VKind.counter 42 []] ∧
    statEntryMetrics "load:load-proc-3" "7" =
      [Metric.stat "load" "process_load" ["id"] VKind.gauge 7 ["3"]] ∧
    statEntryMetrics "sl:2xx_replies" "9" =
      [Metric.stat "sl" "sent_replies" ["code"] VKind.counter 9 ["2xx"]] ∧
    statEntryMetrics "sl:sent_replies" "9" =
      [Metric.stat "sl" "sent_replies_total" [] VKind.counter 9 []] := by
  refine ⟨findStat_first, findStat_none, ?_, statEntryMetrics_length,
    by decide, by decide, by decide, by decide⟩
  intro d m caps h
  unfold statMatch
  rw [h]
  constructor
  · intro h2
    by_cases hm : m = d.stat
    · rw [if_pos hm] at h2
      exact ⟨hm, (Option.some.inj h2).symm⟩
    · rw [if_neg hm] at h2
      cases h2
  · intro ⟨h1, h2⟩
    subst h1
    subst h2
    simp

/-- C5 witness: the literal-match characterisation applied to the
`load` definition at its own flat name. -/
theorem C5_stat_matcher_witness :
    statMatch ⟨"load", "load", none, [], VKind.gauge,
      "The real time load of core OpenSIPS processes"⟩ "load" = some [] :=
  (C5_stat_matcher.2.2.1 _ "load" [] rfl).mpr ⟨rfl, rfl⟩

/-! ### C6 -/

/-- An entry without a subsystem separator emits nothing. -/
theorem statEntryMetrics_no_colon (sn sv : String)
    (h : splitFirstColon sn = none) : statEntryMetrics sn sv = [] := by
  unfold statEntryMetrics
  rw [h]

/-- An entry whose value fails float parsing emits nothing. -/
theorem statEntryMetrics_bad_float (sn sv : String)
    (h : parseGoFloat sv = none) : statEntryMetrics sn sv = [] := by
  unfold statEntryMetrics
  rcases splitFirstColon sn with _ | ⟨subsys, raw⟩
  · rfl
  · simp only
    rw [h]

/-- An entry whose subsystem is absent from the catalog emits
nothing. -/
theorem statEntryMetrics_unknown_subsys (sn sv subsys raw : String)
    (h1 : splitFirstColon sn = some (subsys, raw))
    (h2 : findPair opensipsStats subsys = none) : statEntryMetrics sn sv = [] := by
  unfold statEntryMetrics
  rw [h1]
  simp only
  rcases parseGoFloat sv with _ | value
  · rfl
  · simp only
    rw [h2]

/-- An entry whose flat name matches no definition emits nothing. -/
theorem statEntryMetrics_no_match (sn sv subsys raw : String)
    (defs : List StatDef) (h1 : splitFirstColon sn = some (subsys, raw))
    (h2 : findPair opensipsStats subsys = some defs)
    (h3 : findStat defs (replaceSpaces raw) = none) :
    statEntryMetrics sn sv = [] := by
  unfold statEntryMetrics
  rw [h1]
  simp only
  rcases parseGoFloat sv with _ | value
  · rfl
  · simp only
    rw [h2]
    simp only
    rw [h3]

/-- A fully matched entry emits exactly its metric. -/
theorem statEntryMetrics_emit (sn sv subsys raw : String) (value : ℚ)
    (defs : List StatDef) (st : StatDef) (caps : List String)
    (h1 : splitFirstColon sn = some (subsys, raw))
    (h2 : parseGoFloat sv = some value)
    (h3 : findPair opensipsStats subsys = some defs)
    (h4 : findStat defs (replaceSpaces raw) = some (st, caps)) :
    statEntryMetrics sn sv =
      [Metric.stat subsys st.name st.labelNames st.value value caps] := by
  unfold statEntryMetrics
  rw [h1]
  simp only
  rw [h2]
  simp only
  rw [h3]
  simp only
  rw [h4]

/-- The metrics of the dump loop are exactly the concatenation of the
per-entry metrics: no entry affects any other entry's processing, and
the uptime accumulator does not influence emissions. -/
theorem collectStatsLoop_metrics : ∀ (entries : List (String × String)) (u : ℚ),
    (collectStatsLoop entries u).1 =
      (entries.map (fun e => statEntryMetrics e.1 e.2)).join := by
  intro entries
  induction entries with
  | nil => intro u; rfl
  | cons e rest ih =>
    intro u
    obtain ⟨sn, sv⟩ := e
    rw [List.map_cons, List.join]
    simp only [collectStatsLoop]
    rcases h1 : splitFirstColon sn with _ | ⟨subsys, raw⟩
    · rw [statEntryMetrics_no_colon sn sv h1]
      simp [ih]
    · simp only
      rcases h2 : parseGoFloat sv with _ | value
      · rw [statEntryMetrics_bad_float sn sv h2]
        simp [ih]
      · simp only
        rcases h3 : findPair opensipsStats subsys with _ | defs
        · rw [statEntryMetrics_unknown_subsys sn sv subsys raw h1 h3]
          simp [ih]
        · simp only
          rcases h4 : findStat defs (replaceSpaces raw) with _ | ⟨st, caps⟩
          · rw [statEntryMetrics_no_match sn sv subsys raw defs h1 h3 h4]
            simp [ih]
          · rw [statEntryMetrics_emit sn sv subsys raw value defs st caps h1 h2 h3 h4]
            simp [ih]

/-- C6: per-entry skip conditions produce no metric and no error, and
never disturb the rest of the dump: an entry without a subsystem
separator, an entry whose value fails float parsing, an entry whose
subsystem is not in the catalog, and an entry whose flat name matches
no definition each contribute the empty emission list, while the
loop's output is always the concatenation of independent per-entry
results. -/
theorem C6_skip_and_continue :
    (∀ entries u, (collectStatsLoop entries u).1 =
      (entries.map (fun e => statEntryMetrics e.1 e.2)).join) ∧
    (∀ sn sv, splitFirstColon sn = none → statEntryMetrics sn sv = []) ∧
    (∀ sn sv, parseGoFloat sv = none → statEntryMetrics sn sv = []) ∧
    (∀ sn sv subsys raw, splitFirstColon sn = some (subsys, raw) →
      findPair opensipsStats subsys = none → statEntryMetrics sn sv = []) ∧
    (∀ sn sv subsys raw defs, splitFirstColon sn = some (subsys, raw) →
      findPair opensipsStats subsys = some defs →
      findStat defs (replaceSpaces raw) = none → statEntryMetrics sn sv = []) := by
  exact ⟨collectStatsLoop_metrics, statEntryMetrics_no_colon,
    statEntryMetrics_bad_float, statEntryMetrics_unknown_subsys,
    fun sn sv subsys raw defs h1 h2 h3 =>
      statEntryMetrics_no_match sn sv subsys raw defs h1 h2 h3⟩

/-- C6 witness: a known subsystem with an unknown flat name inside a
dump — the entry emits nothing and the surrounding entries still
emit. -/
theorem C6_skip_and_continue_witness :
    statEntryMetrics "core:totally_unknown_stat" "5" = [] ∧
    (collectStatsLoop [("core:totally_unknown_stat", "5"),
      ("core:rcv_requests", "42")] 0).1 =
      ([("core:totally_unknown_stat", "5"), ("core:rcv_requests", "42")].map
        (fun e => statEntryMetrics e.1 e.2)).join :=
  ⟨C6_skip_and_continue.2.2.2.2 "core:totally_unknown_stat" "5" "core"
    "totally_unknown_stat" _ rfl rfl rfl,
   C6_skip_and_continue.1 _ 0⟩

/-! ### C7 -/

/-- A dump entry never emits the up gauge. -/
theorem statEntryMetrics_no_up (sn sv : String) (v : ℚ) :
    Metric.up v ∉ statEntryMetrics sn sv := by
  unfold statEntryMetrics
  rcases splitFirstColon sn with _ | ⟨subsys, raw⟩
  · simp
  · simp only
    rcases parseGoFloat sv with _ | value
    · simp
    · simp only
      rcases findPair opensipsStats subsys with _ | defs
      · simp
      · simp only
        rcases findStat defs (replaceSpaces raw) with _ | ⟨stt, caps⟩ <;> simp

/-- The version probe never emits the up gauge. -/
theorem collectVersionInfo_no_up (vm : String → Option (List String)) (conn : Conn)
    (vms : List Metric) (h : collectVersionInfo vm conn = .ok vms) (v : ℚ) :
    Metric.up v ∉ vms := by
  intro hv
  unfold collectVersionInfo at h
  rcases hc : conn.command "version" [] with e | resp <;> rw [hc] at h
  · cases h
  · simp only at h
    rcases hg : vm (goGet resp.childValues "Server") with _ | g <;> rw [hg] at h <;>
      cases h <;> simp at hv

/-- The process step never emits the up gauge. -/
theorem collectProcessInfo_no_up (conn : Conn) (st : CacheState) (b : Bool) (v : ℚ) :
    Metric.up v ∉ (collectProcessInfo conn st b).1 := by
  unfold collectProcessInfo
  rcases b with _ | _
  · simp
  · rcases hc : conn.command "ps" [] with e | resp <;> simp [hc]

/-- The statistics step never emits the up gauge. -/
theorem collectStats_no_up (conn : Conn) (v : ℚ) :
    Metric.up v ∉ (collectStats conn).1 := by
  intro hv
  unfold collectStats at hv
  rcases hc : conn.command "get_statistics" ["all"] with e | resp <;> rw [hc] at hv
  · simp at hv
  · simp only at hv
    rw [collectStatsLoop_metrics] at hv
    rcases List.mem_join.mp hv with ⟨l, hl, hin⟩
    rcases List.mem_map.mp hl with ⟨en, hen, rfl⟩
    exact statEntryMetrics_no_up en.1 en.2 v hin

/-- A profile value node never emits the up gauge. -/
theorem profileNodeMetrics_no_up (profile : String) (nd : MINode) (v : ℚ) :
    Metric.up v ∉ profileNodeMetrics profile nd := by
  unfold profileNodeMetrics
  rcases parseGoFloat (goGet nd.attrs "count") with _ | count
  · simp
  · simp only
    rcases h : (findAllProfilePairs nd.value).isEmpty with _ | _ <;> simp [h]

/-- The per-profile loop never emits the up gauge. -/
theorem profileLoop_no_up : ∀ (profs : List (String × Bool)) (conn : Conn) (v : ℚ),
    Metric.up v ∉ (profileLoop conn profs).1 := by
  intro profs
  induction profs with
  | nil => intro conn v; simp [profileLoop]
  | cons q rest ih =>
    intro conn v hv
    obtain ⟨q1, qb⟩ := q
    rcases qb with _ | _
    · rw [show profileLoop conn ((q1, false) :: rest) = profileLoop conn rest
        from rfl] at hv
      exact ih conn v hv
    · simp only [profileLoop] at hv
      rcases hc : conn.command "profile_get_values" [q1] with e | resp <;>
        rw [hc] at hv <;> simp only at hv
      · exact ih conn v hv
      · rcases List.mem_append.mp hv with h | h
        · rcases List.mem_join.mp h with ⟨l, hl, hin⟩
          rcases List.mem_map.mp hl with ⟨nd, hnd, rfl⟩
          exact profileNodeMetrics_no_up q1 nd v hin
        · exact ih conn v h

/-- The dialog-profile step never emits the up gauge. -/
theorem collectDialogProfiles_no_up (conn : Conn) (st : CacheState) (b : Bool)
    (v : ℚ) : Metric.up v ∉ (collectDialogProfiles conn st b).1 := by
  unfold collectDialogProfiles
  rcases b with _ | _
  · simp only [Bool.false_eq_true, if_false]
    exact profileLoop_no_up st.profiles conn v
  · simp only [if_true]
    rcases hc : conn.command "list_all_profiles" [] with e | resp <;> simp only [hc]
    · simp
    · exact profileLoop_no_up _ conn v

/-- C7: a failed connection or a failed liveness/version probe makes
the pass emit exactly the up gauge at value 0 — no commands beyond the
probe are issued, no other metric is emitted, and the cache is
untouched; a successful probe makes the pass end with the up gauge at
value 1, emitted after every other metric of the pass, and no other up
emission occurs. -/
theorem C7_up_gauge (vm : String → Option (List String)) (st : CacheState) :
    (∀ e, Collect vm (.error e) st = ⟨[Metric.up 0], st, [], 0⟩) ∧
    (∀ (conn : Conn) (e : String), conn.command "version" [] = .error e →
      Collect vm (.ok conn) st = ⟨[Metric.up 0], st, [("version", [])], 0⟩) ∧
    (∀ (conn : Conn) (resp : MINode), conn.command "version" [] = .ok resp →
      ∃ ms, (Collect vm (.ok conn) st).metrics = ms ++ [Metric.up 1] ∧
        ∀ v, Metric.up v ∉ ms) := by
  refine ⟨fun e => rfl, ?_, ?_⟩
  · intro conn e h
    simp only [Collect, collectVersionInfo, h]
  · intro conn resp h
    rcases hv : collectVersionInfo vm conn with e2 | vms
    · exfalso
      unfold collectVersionInfo at hv
      rw [h] at hv
      simp only at hv
      rcases hg : vm (goGet resp.childValues "Server") with _ | g <;>
        rw [hg] at hv <;> cases hv
    · simp only [Collect, hv]
      refine ⟨_, rfl, ?_⟩
      intro v hv2
      rcases List.mem_append.mp hv2 with h12 | h3
      · rcases List.mem_append.mp h12 with h01 | h2
        · rcases List.mem_append.mp h01 with h0 | h1
          · exact collectVersionInfo_no_up vm conn vms hv v h0
          · exact collectProcessInfo_no_up conn _ _ v h1
        · revert h2
          repeat' split
          all_goals
            first
            | exact collectStats_no_up conn v
            | simp
      · revert h3
        repeat' split
        all_goals
          first
          | exact collectDialogProfiles_no_up conn _ _ v
          | simp

/-- C7 witness: a pass whose connection fails emits exactly the down
signal and touches nothing. -/
theorem C7_up_gauge_witness :
    Collect vmNone (.error "connection refused") initCache =
      ⟨[Metric.up 0], initCache, [], 0⟩ :=
  (C7_up_gauge vmNone initCache).1 "connection refused"

/-! ### C8 -/

/-- C8: within dialog-profile collection, a per-key value node whose
string parses to at least one key=value pair emits exactly one gauge
metric whose label names are `profile` followed by the parsed keys and
whose label values are the profile name followed by the parsed values,
carrying the parsed count; a node whose string yields no pair emits
the two-label (profile, raw value) fallback instead.  The concrete
instance is the spec's own example: value `"key1=a,key2=b"` with count
`"7"`. -/
theorem C8_dialog_profile_node (profile : String) (nd : MINode) :
    (∀ p : String, profileNodeMetrics p
        (.mk "" "key1=a,key2=b" (some [("count", "7")]) [] none) =
      [Metric.profileValues ["profile", "key1", "key2"] [p, "a", "b"] 7]) ∧
    (∀ count : ℚ, parseGoFloat (goGet nd.attrs "count") = some count →
      findAllProfilePairs nd.value = [] →
      profileNodeMetrics profile nd = [Metric.profileFallback profile nd.value count]) ∧
    (∀ (count : ℚ) (pairs : List (String × String)),
      parseGoFloat (goGet nd.attrs "count") = some count →
      findAllProfilePairs nd.value = pairs → pairs ≠ [] →
      profileNodeMetrics profile nd =
        [Metric.profileValues ("profile" :: pairs.map Prod.fst)
          (profile :: pairs.map Prod.snd) count]) := by
  refine ⟨?_, ?_, ?_⟩
  · intro p
    unfold profileNodeMetrics
    have hcount : parseGoFloat (goGet (MINode.mk "" "key1=a,key2=b"
        (some [("count", "7")]) [] none).attrs "count") = some 7 := by decide
    rw [hcount]
    have hpairs : findAllProfilePairs (MINode.mk "" "key1=a,key2=b"
        (some [("count", "7")]) [] none).value = [("key1", "a"), ("key2", "b")] := by
      decide
    simp [hpairs]
  · intro count hc hp
    unfold profileNodeMetrics
    rw [hc]
    simp [hp]
  · intro count pairs hc hp hne
    unfold profileNodeMetrics
    rw [hc]
    simp only [hp]
    rw [if_neg (by simpa [List.isEmpty_iff] using hne)]

/-- C8 witness: a value string with no recognizable pair falls back to
the two-label form. -/
theorem C8_dialog_profile_node_witness :
    profileNodeMetrics "callers"
      (.mk "" "raw stuff" (some [("count", "7")]) [] none) =
      [Metric.profileFallback "callers" "raw stuff" 7] :=
  (C8_dialog_profile_node "callers"
    (.mk "" "raw stuff" (some [("count", "7")]) [] none)).2.1 7 (by decide) (by decide)

/-! ### C9 -/

theorem fetchCommands_lastUptime (conn : Conn) (st : CacheState) :
    (fetchCommands conn st).lastUptime = st.lastUptime := by
  unfold fetchCommands
  rcases hc : conn.command "which" [] with e | resp <;> simp [hc]

theorem collectProcessInfo_lastUptime (conn : Conn) (st : CacheState) (b : Bool) :
    (collectProcessInfo conn st b).2.1.lastUptime = st.lastUptime := by
  unfold collectProcessInfo
  rcases b with _ | _
  · simp
  · rcases hc : conn.command "ps" [] with e | resp <;> simp [hc]

theorem collectDialogProfiles_lastUptime (conn : Conn) (st : CacheState) (b : Bool) :
    (collectDialogProfiles conn st b).2.1.lastUptime = st.lastUptime := by
  unfold collectDialogProfiles
  rcases b with _ | _
  · simp
  · rcases hc : conn.command "list_all_profiles" [] with e | resp <;> simp [hc]

/-- The restart check either writes nothing, or detects a restart and
resets everything, recording the observed uptime. -/
theorem restartCheck_cases (u : ℚ) (s : CacheState) (base : ℚ)
    (hbase : s.lastUptime = base) :
    (restartCheck u s).lastUptime = base ∨
      (u < base ∧ restartCheck u s = ⟨[], [], [], u⟩) := by
  unfold restartCheck
  by_cases hlt : u < s.lastUptime
  · right
    rw [if_pos hlt]
    exact ⟨hbase ▸ hlt, rfl⟩
  · left
    rw [if_neg hlt]
    exact hbase

/-- C9: the end-of-pass restart check is the only writer of
`lastUptime`, and it writes only on an actual restart detection.  When
the observed uptime is at least the cached `lastUptime` the check is
an identity on the cache, so a pass whose observed uptime is at least
the cached value leaves `lastUptime` unchanged (in particular it stays
at its initial zero); in general every pass either preserves
`lastUptime` or observed an uptime strictly below it and reset the
whole cache, recording that uptime. -/
theorem C9_restart_frame (vm : String → Option (List String))
    (conn? : Except String Conn) (st : CacheState) :
    (∀ (u : ℚ) (s : CacheState), s.lastUptime ≤ u → restartCheck u s = s) ∧
    (st.lastUptime ≤ (Collect vm conn? st).uptime →
      (Collect vm conn? st).state.lastUptime = st.lastUptime) ∧
    ((Collect vm conn? st).state.lastUptime = st.lastUptime ∨
      ((Collect vm conn? st).uptime < st.lastUptime ∧
        (Collect vm conn? st).state = ⟨[], [], [], (Collect vm conn? st).uptime⟩)) := by
  have hrc : ∀ (u : ℚ) (s : CacheState), s.lastUptime ≤ u → restartCheck u s = s := by
    intro u s h
    unfold restartCheck
    rw [if_neg (not_lt.mpr h)]
  have key : (Collect vm conn? st).state.lastUptime = st.lastUptime ∨
      ((Collect vm conn? st).uptime < st.lastUptime ∧
        (Collect vm conn? st).state = ⟨[], [], [], (Collect vm conn? st).uptime⟩) := by
    rcases conn? with e | conn
    · left
      rfl
    · rcases hv : collectVersionInfo vm conn with e2 | vms
      · left
        simp [Collect, hv]
      · simp only [Collect, hv]
        repeat' split
        all_goals
          exact restartCheck_cases _ _ _ (by
            simp [collectDialogProfiles_lastUptime, collectProcessInfo_lastUptime,
              fetchCommands_lastUptime])
  refine ⟨hrc, ?_, key⟩
  intro hle
  rcases key with h | ⟨hlt, _⟩
  · exact h
  · exact absurd hle (not_le.mpr hlt)

/-- C9 witness: the spec's non-restart example, a pass observing 600
after one with cached uptime 500, leaves the cache untouched. -/
theorem C9_restart_frame_witness :
    restartCheck 600 ⟨["get_statistics"], [("1", "udp")], [("p", true)], 500⟩ =
      ⟨["get_statistics"], [("1", "udp")], [("p", true)], 500⟩ :=
  (C9_restart_frame vmNone (.error "x") initCache).1 600
    ⟨["get_statistics"], [("1", "udp")], [("p", true)], 500⟩ (by norm_num)

/-! ### C10 -/

/-- The per-profile loop issues a value fetch for a profile exactly
when that profile appears with its has-values flag set. -/
theorem profileLoop_trace : ∀ (profs : List (String × Bool)) (conn : Conn)
    (p : String), ("profile_get_values", [p]) ∈ (profileLoop conn profs).2 ↔
      (p, true) ∈ profs := by
  intro profs
  induction profs with
  | nil => intro conn p; simp [profileLoop]
  | cons q rest ih =>
    intro conn p
    obtain ⟨q1, qb⟩ := q
    rcases qb with _ | _
    · rw [show profileLoop conn ((q1, false) :: rest) = profileLoop conn rest
        from rfl]
      simp [ih]
    · simp only [profileLoop]
      rcases hc : conn.command "profile_get_values" [q1] with e | resp <;>
        simp only [hc] <;> simp [ih, List.mem_cons, Prod.ext_iff]

/-- C10: refreshing the profile cache flags every listed profile as
carrying per-key values exactly when its reported value string differs
from the literal `"0"` (an empty or non-numeric string therefore
counts as having values), and the per-profile loop issues a value
fetch for exactly the cached profiles whose flag is true. -/
theorem C10_profile_flags (conn : Conn) (st : CacheState) (resp : MINode)
    (entries : List (String × String)) :
    (conn.command "list_all_profiles" [] = .ok resp →
      resp.childValues = some entries →
      (collectDialogProfiles conn st true).2.1.profiles =
        entries.map (fun p => (p.1, p.2 != "0"))) ∧
    (∀ hv : String, ((hv != "0") = true ↔ hv ≠ "0")) ∧
    (∀ (profs : List (String × Bool)) (p : String),
      ("profile_get_values", [p]) ∈ (profileLoop conn profs).2 ↔
        (p, true) ∈ profs) := by
  refine ⟨?_, ?_, fun profs p => profileLoop_trace profs conn p⟩
  · intro h hcv
    simp [collectDialogProfiles, h, hcv]
  · intro hv
    exact bne_iff_ne

/-- A monitored system listing two dialog profiles: `caller` with
value string `"0"` (no per-key values) and `callee` with the empty
value string. -/
def connProfiles : Conn :=
  ⟨fun cmd _ =>
    if cmd = "list_all_profiles" then
      .ok (.mk "" "" none [] (some [("caller", "0"), ("callee", "")]))
    else .error "no"⟩

/-- C10 witness: refreshing from a listing of `caller` value `"0"` and
`callee` value `""` flags exactly the empty-string profile as carrying
values. -/
theorem C10_profile_flags_witness :
    (collectDialogProfiles connProfiles initCache true).2.1.profiles =
      [("caller", "0"), ("callee", "")].map (fun p => (p.1, p.2 != "0")) :=
  (C10_profile_flags connProfiles initCache
    (.mk "" "" none [] (some [("caller", "0"), ("callee", "")]))
    [("caller", "0"), ("callee", "")]).1 rfl rfl

end OSE
